import Mathlib

/-!
Shallow embedding of the PubGrub term algebra (`src/internal/term.rs`).

The `Range` type is an external collaborator of the module under study: the
code only uses its `contains`, `negate`, `intersection`, `union`, `none`
operations and structural equality.  We therefore embed `Term` parameterized
by an abstract range signature `RangeSig`, and also provide a small concrete
instance (finite version sets over four versions) that satisfies the Boolean
algebra contract, for evaluating statements on concrete inputs.
-/

namespace PubGrub

/-- The operations the term algebra requires from the external `Range` type
(`contains`, `negate`, `intersection`, `union` and the empty set `none`). -/
structure RangeSig (V : Type) (R : Type) where
  contains : R → V → Bool
  negate : R → R
  inter : R → R → R
  union : R → R → R
  none : R

/-- `Term<V>` from `term.rs`: a positive or negative expression regarding a
set of versions. -/
inductive Term (R : Type) where
  | Positive : R → Term R
  | Negative : R → Term R
  deriving DecidableEq

/-- `Relation` from `term.rs`: the relation between a set of terms S and
another term t. -/
inductive Relation where
  | Satisfied
  | Contradicted
  | Inconclusive
  deriving DecidableEq

namespace Term

variable {V R : Type} [DecidableEq R]

/-- `Term::is_positive`. -/
def is_positive : Term R → Bool
  | Positive _ => true
  | Negative _ => false

/-- `Term::negate`: swaps the constructor around the same range. -/
def negate : Term R → Term R
  | Positive r => Negative r
  | Negative r => Positive r

/-- `Term::accept_version`: evaluate a term regarding a given choice of
version. -/
def accept_version (S : RangeSig V R) : Term R → V → Bool
  | Positive r, v => S.contains r v
  | Negative r, v => !(S.contains r v)

/-- `Term::accept_optional_version`: evaluate a term regarding a given choice
(or absence) of version. -/
def accept_optional_version (S : RangeSig V R) (t : Term R) (v? : Option V) : Bool :=
  match t, v? with
  | Negative _, Option.none => true
  | Positive _, Option.none => false
  | t, some v => accept_version S t v

/-- `Term::intersection`: the four-case sign analysis. -/
def intersection (S : RangeSig V R) : Term R → Term R → Term R
  | Positive r1, Positive r2 => Positive (S.inter r1 r2)
  | Positive r1, Negative r2 => Positive (S.inter r1 (S.negate r2))
  | Negative r1, Positive r2 => Positive (S.inter (S.negate r1) r2)
  | Negative r1, Negative r2 => Negative (S.union r1 r2)

/-- `Term::union`, defined via De Morgan from `intersection` and `negate`. -/
def union (S : RangeSig V R) (t1 t2 : Term R) : Term R :=
  (intersection S t1.negate t2.negate).negate

/-- `Term::intersect_all`: left fold of `intersection` seeded with the first
element; `none` on an empty sequence.  The Rust iterator is embedded as a
list. -/
def intersect_all (S : RangeSig V R) : List (Term R) → Option (Term R)
  | [] => Option.none
  | t :: ts => some (ts.foldl (intersection S) t)

/-- `Term::subset_of`: `t1 == t1.intersection(t2)`. -/
def subset_of (S : RangeSig V R) (t1 t2 : Term R) : Bool :=
  decide (t1 = intersection S t1 t2)

/-- `Term::satisfied_by`. -/
def satisfied_by (S : RangeSig V R) (self : Term R) (terms : List (Term R)) : Bool :=
  match intersect_all S terms with
  | Option.none => decide (self = Negative S.none)
  | some i => subset_of S i self

/-- `Term::contradicted_by`. -/
def contradicted_by (S : RangeSig V R) (self : Term R) (terms : List (Term R)) : Bool :=
  match intersect_all S terms with
  | Option.none => decide (self = Positive S.none)
  | some i => decide (intersection S i self = Positive S.none)

/-- `Term::relation_with`: the three-way classifier.  `other_terms` is an
optional evidence list; `and_then`/`unwrap_or` become `Option.bind`/`getD`. -/
def relation_with (S : RangeSig V R) (self : Term R)
    (other_terms : Option (List (Term R))) : Relation :=
  let other_terms_intersection :=
    (other_terms.bind (intersect_all S)).getD (Negative S.none)
  let full_intersection := intersection S self other_terms_intersection
  if full_intersection = other_terms_intersection then Relation.Satisfied
  else if full_intersection = Positive S.none then Relation.Contradicted
  else Relation.Inconclusive

end Term

/-! ## Concrete instance for evaluation

Versions are `Fin 4` (standing for integer versions 0..3) and a range is a
finite set of those versions, represented structurally as a quadruple of
membership flags so that equality is kernel-computable.  The Boolean set
operations form a commutative idempotent Boolean algebra, as the external
`Range` contract demands. -/

/-- Concrete range representation: a set of the four test versions, as a
quadruple of membership flags for versions 0, 1, 2, 3. -/
abbrev TestR : Type := Bool × Bool × Bool × Bool

/-- The concrete range signature: Boolean set operations on `TestR`. -/
def testSig : RangeSig (Fin 4) TestR where
  contains r v := [r.1, r.2.1, r.2.2.1, r.2.2.2].get v
  negate r := (!r.1, !r.2.1, !r.2.2.1, !r.2.2.2)
  inter r1 r2 :=
    (r1.1 && r2.1, r1.2.1 && r2.2.1, r1.2.2.1 && r2.2.2.1, r1.2.2.2 && r2.2.2.2)
  union r1 r2 :=
    (r1.1 || r2.1, r1.2.1 || r2.2.1, r1.2.2.1 || r2.2.2.1, r1.2.2.2 || r2.2.2.2)
  none := (false, false, false, false)

/-- The half-open interval [1,2) of the spec's scenarios: exactly version 1. -/
def r12 : TestR := (false, true, false, false)

/-- The half-open interval [1,3) of the spec's scenarios: versions 1 and 2. -/
def r13 : TestR := (false, true, true, false)

/-- The half-open interval [2,3) of the spec's scenarios: exactly version 2. -/
def r23 : TestR := (false, false, true, false)

/-! ## Theorems -/

section Theorems

set_option linter.unusedSectionVars false

variable {V R : Type} [DecidableEq R]

/-- Helper: term intersection is commutative whenever the underlying range
intersection and union are. -/
theorem intersection_comm (S : RangeSig V R)
    (hic : ∀ a b : R, S.inter a b = S.inter b a)
    (huc : ∀ a b : R, S.union a b = S.union b a)
    (t1 t2 : Term R) : Term.intersection S t1 t2 = Term.intersection S t2 t1 := by
  cases t1 <;> cases t2 <;> simp [Term.intersection, hic, huc]

/-- C1 (amended): for a term `Negative r` with `r` a non-empty range (assuming
range union with `none` is the identity), `relation_with` with no evidence
returns `Inconclusive`, not `Satisfied`. -/
theorem c1_relation_with_no_evidence_negative (S : RangeSig V R)
    (hUnionNone : ∀ r : R, S.union r S.none = r) (r : R) (hr : r ≠ S.none) :
    Term.relation_with S (Term.Negative r) Option.none = Relation.Inconclusive := by
  simp [Term.relation_with, Term.intersection, hUnionNone, hr]

/-- C1 counterexample: `r12` (the spec's `[1,2)`) is non-empty (it contains
version 1), yet `relation_with (Negative r12) None` is `Inconclusive`, not
`Satisfied` as the claim states. -/
theorem c1_counterexample :
    testSig.contains r12 1 = true ∧
    Term.relation_with testSig (Term.Negative r12) Option.none = Relation.Inconclusive ∧
    Term.relation_with testSig (Term.Negative r12) Option.none ≠ Relation.Satisfied := by
  decide

/-- C1 witness: the amended theorem applied at the concrete instance. -/
theorem c1_witness :
    (∀ r : TestR, testSig.union r testSig.none = r) ∧ r12 ≠ testSig.none ∧
    Term.relation_with testSig (Term.Negative r12) Option.none = Relation.Inconclusive := by
  have h1 : ∀ r : TestR, testSig.union r testSig.none = r := by
    rintro ⟨a, b, c, d⟩
    simp [testSig]
  have h2 : r12 ≠ testSig.none := by decide
  exact ⟨h1, h2, c1_relation_with_no_evidence_negative testSig h1 r12 h2⟩

/-- C2: for non-empty evidence, assuming range intersection and union are
commutative (part of the Boolean-algebra contract), `relation_with` agrees
with `satisfied_by` and `contradicted_by`: `Satisfied` iff `satisfied_by`,
`Contradicted` iff not satisfied and `contradicted_by`, `Inconclusive` iff
neither. -/
theorem c2_relation_consistency (S : RangeSig V R)
    (hic : ∀ a b : R, S.inter a b = S.inter b a)
    (huc : ∀ a b : R, S.union a b = S.union b a)
    (self t : Term R) (ts : List (Term R)) :
    (Term.relation_with S self (some (t :: ts)) = Relation.Satisfied
      ↔ Term.satisfied_by S self (t :: ts) = true) ∧
    (Term.relation_with S self (some (t :: ts)) = Relation.Contradicted
      ↔ (Term.satisfied_by S self (t :: ts) = false ∧
          Term.contradicted_by S self (t :: ts) = true)) ∧
    (Term.relation_with S self (some (t :: ts)) = Relation.Inconclusive
      ↔ (Term.satisfied_by S self (t :: ts) = false ∧
          Term.contradicted_by S self (t :: ts) = false)) := by
  have hcomm := intersection_comm S hic huc self (List.foldl (Term.intersection S) t ts)
  have h1 : Term.relation_with S self (some (t :: ts)) =
      (if Term.intersection S (List.foldl (Term.intersection S) t ts) self
          = List.foldl (Term.intersection S) t ts then Relation.Satisfied
       else if Term.intersection S (List.foldl (Term.intersection S) t ts) self
          = Term.Positive S.none then Relation.Contradicted
       else Relation.Inconclusive) := by
    rw [Term.relation_with]
    simp only [Option.bind, Term.intersect_all, Option.getD, hcomm]
  have h2 : Term.satisfied_by S self (t :: ts)
      = decide (List.foldl (Term.intersection S) t ts
          = Term.intersection S (List.foldl (Term.intersection S) t ts) self) := by
    simp only [Term.satisfied_by, Term.intersect_all, Term.subset_of]
  have h3 : Term.contradicted_by S self (t :: ts)
      = decide (Term.intersection S (List.foldl (Term.intersection S) t ts) self
          = Term.Positive S.none) := by
    simp only [Term.contradicted_by, Term.intersect_all]
  rw [h1, h2, h3]
  by_cases hs : Term.intersection S (List.foldl (Term.intersection S) t ts) self
      = List.foldl (Term.intersection S) t ts
  · rw [if_pos hs]
    simp [hs]
  · have hs' : ¬(List.foldl (Term.intersection S) t ts
        = Term.intersection S (List.foldl (Term.intersection S) t ts) self) :=
      fun h => hs h.symm
    by_cases hc : Term.intersection S (List.foldl (Term.intersection S) t ts) self
        = Term.Positive S.none
    · have hs3 : ¬(List.foldl (Term.intersection S) t ts = Term.Positive S.none) :=
        fun h => hs (hc.trans h.symm)
      have hs4 : ¬(Term.Positive S.none = List.foldl (Term.intersection S) t ts) :=
        fun h => hs3 h.symm
      rw [if_neg hs, if_pos hc]
      simp [hc, hs3, hs4]
    · rw [if_neg hs, if_neg hc]
      simp [hs', hc]

/-- C2 witness: the consistency theorem applied at the concrete instance with
self `Positive [1,3)` and evidence `[Positive [1,2)]`. -/
theorem c2_witness :
    (∀ a b : TestR, testSig.inter a b = testSig.inter b a) ∧
    (∀ a b : TestR, testSig.union a b = testSig.union b a) ∧
    ((Term.relation_with testSig (Term.Positive r13) (some [Term.Positive r12])
        = Relation.Satisfied
      ↔ Term.satisfied_by testSig (Term.Positive r13) [Term.Positive r12] = true) ∧
    (Term.relation_with testSig (Term.Positive r13) (some [Term.Positive r12])
        = Relation.Contradicted
      ↔ (Term.satisfied_by testSig (Term.Positive r13) [Term.Positive r12] = false ∧
          Term.contradicted_by testSig (Term.Positive r13) [Term.Positive r12] = true)) ∧
    (Term.relation_with testSig (Term.Positive r13) (some [Term.Positive r12])
        = Relation.Inconclusive
      ↔ (Term.satisfied_by testSig (Term.Positive r13) [Term.Positive r12] = false ∧
          Term.contradicted_by testSig (Term.Positive r13) [Term.Positive r12] = false))) := by
  have hic : ∀ a b : TestR, testSig.inter a b = testSig.inter b a := by
    rintro ⟨a1, a2, a3, a4⟩ ⟨b1, b2, b3, b4⟩
    simp [testSig, Bool.and_comm]
  have huc : ∀ a b : TestR, testSig.union a b = testSig.union b a := by
    rintro ⟨a1, a2, a3, a4⟩ ⟨b1, b2, b3, b4⟩
    simp [testSig, Bool.or_comm]
  exact ⟨hic, huc,
    c2_relation_consistency testSig hic huc (Term.Positive r13) (Term.Positive r12) []⟩

/-- C3: over empty evidence, `satisfied_by` holds exactly for the tautology
`Negative(none)` and `contradicted_by` exactly for the unsatisfiable term
`Positive(none)`; both are false for every other term. -/
theorem c3_empty_evidence_sentinels (S : RangeSig V R) (t : Term R) :
    (Term.satisfied_by S t [] = true ↔ t = Term.Negative S.none) ∧
    (Term.contradicted_by S t [] = true ↔ t = Term.Positive S.none) := by
  simp [Term.satisfied_by, Term.contradicted_by, Term.intersect_all]

/-- C4: `intersection` follows the four-case sign table, and the result is the
`Positive` case exactly when at least one operand is. -/
theorem c4_intersection_sign_table (S : RangeSig V R) (r1 r2 : R) (t1 t2 : Term R) :
    Term.intersection S (Term.Positive r1) (Term.Positive r2)
      = Term.Positive (S.inter r1 r2) ∧
    Term.intersection S (Term.Positive r1) (Term.Negative r2)
      = Term.Positive (S.inter r1 (S.negate r2)) ∧
    Term.intersection S (Term.Negative r1) (Term.Positive r2)
      = Term.Positive (S.inter (S.negate r1) r2) ∧
    Term.intersection S (Term.Negative r1) (Term.Negative r2)
      = Term.Negative (S.union r1 r2) ∧
    (Term.intersection S t1 t2).is_positive = (t1.is_positive || t2.is_positive) := by
  refine ⟨rfl, rfl, rfl, rfl, ?_⟩
  cases t1 <;> cases t2 <;> rfl

/-- C5: `union` satisfies the De Morgan identity with `intersection` and
`negate`, as an equation between the embedded functions. -/
theorem c5_union_de_morgan (S : RangeSig V R) (t1 t2 : Term R) :
    Term.union S t1 t2 = (Term.intersection S t1.negate t2.negate).negate := rfl

/-- C6: `intersect_all` returns `none` on an empty sequence, and on a
non-empty sequence returns `some` of the left fold of `intersection` seeded
with the first element; on a singleton it returns `some` that element. -/
theorem c6_intersect_all_fold (S : RangeSig V R) (t : Term R) (ts : List (Term R)) :
    Term.intersect_all S ([] : List (Term R)) = Option.none ∧
    Term.intersect_all S (t :: ts) = some (List.foldl (Term.intersection S) t ts) ∧
    Term.intersect_all S [t] = some t :=
  ⟨rfl, rfl, rfl⟩

/-- C7: `accept_optional_version` accepts a `Negative` term and rejects a
`Positive` term when no version is selected, and otherwise delegates to
`accept_version`, which tests range containment (negated for `Negative`). -/
theorem c7_accept_version_spec (S : RangeSig V R) (r : R) (v : V) (t : Term R) :
    Term.accept_optional_version S (Term.Negative r) Option.none = true ∧
    Term.accept_optional_version S (Term.Positive r) Option.none = false ∧
    Term.accept_optional_version S t (some v) = Term.accept_version S t v ∧
    Term.accept_version S (Term.Positive r) v = S.contains r v ∧
    Term.accept_version S (Term.Negative r) v = !(S.contains r v) := by
  refine ⟨rfl, rfl, ?_, rfl, rfl⟩
  cases t <;> rfl

/-- C9: `negate` swaps the `Positive` and `Negative` cases around an unchanged
range, and double negation is the identity. -/
theorem c9_negate_involutive (r : R) (t : Term R) :
    Term.negate (Term.Positive r : Term R) = Term.Negative r ∧
    Term.negate (Term.Negative r : Term R) = Term.Positive r ∧
    t.negate.negate = t := by
  refine ⟨rfl, rfl, ?_⟩
  cases t <;> rfl

/-- C8: assuming range intersection and union are idempotent, term
`intersection` and `union` are idempotent and `subset_of` is reflexive. -/
theorem c8_idempotence (S : RangeSig V R)
    (hii : ∀ r : R, S.inter r r = r) (hui : ∀ r : R, S.union r r = r) (t : Term R) :
    Term.intersection S t t = t ∧ Term.union S t t = t ∧ Term.subset_of S t t = true := by
  have h1 : Term.intersection S t t = t := by
    cases t <;> simp [Term.intersection, hii, hui]
  have h2 : Term.union S t t = t := by
    cases t <;> simp [Term.union, Term.negate, Term.intersection, hii, hui]
  exact ⟨h1, h2, by simp [Term.subset_of, h1]⟩

/-- C8 witness: idempotence and subset reflexivity at the concrete instance. -/
theorem c8_witness :
    (∀ r : TestR, testSig.inter r r = r) ∧ (∀ r : TestR, testSig.union r r = r) ∧
    (Term.intersection testSig (Term.Positive r12) (Term.Positive r12) = Term.Positive r12 ∧
     Term.union testSig (Term.Positive r12) (Term.Positive r12) = Term.Positive r12 ∧
     Term.subset_of testSig (Term.Positive r12) (Term.Positive r12) = true) := by
  have hii : ∀ r : TestR, testSig.inter r r = r := by
    rintro ⟨a, b, c, d⟩
    simp [testSig]
  have hui : ∀ r : TestR, testSig.union r r = r := by
    rintro ⟨a, b, c, d⟩
    simp [testSig]
  exact ⟨hii, hui, c8_idempotence testSig hii hui (Term.Positive r12)⟩

/-- C10: when the folded evidence intersection is the unsatisfiable term
`Positive(none)` (jointly unsatisfiable evidence) and `none` is absorbing for
range intersection, `satisfied_by` and `contradicted_by` are both true
simultaneously, and `relation_with` returns `Satisfied` (never `Contradicted`)
because the `Satisfied` equality check comes first. -/
theorem c10_jointly_unsatisfiable_evidence (S : RangeSig V R)
    (h1 : ∀ r : R, S.inter S.none r = S.none) (h2 : ∀ r : R, S.inter r S.none = S.none)
    (self : Term R) (evidence : List (Term R))
    (hev : Term.intersect_all S evidence = some (Term.Positive S.none)) :
    Term.satisfied_by S self evidence = true ∧
    Term.contradicted_by S self evidence = true ∧
    Term.relation_with S self (some evidence) = Relation.Satisfied := by
  have hL : Term.intersection S (Term.Positive S.none) self = Term.Positive S.none := by
    cases self <;> simp [Term.intersection, h1]
  have hR : Term.intersection S self (Term.Positive S.none) = Term.Positive S.none := by
    cases self <;> simp [Term.intersection, h2]
  refine ⟨?_, ?_, ?_⟩
  · simp [Term.satisfied_by, hev, Term.subset_of, hL]
  · simp [Term.contradicted_by, hev, hL]
  · simp [Term.relation_with, hev, hR]

/-- C10 witness: two disjoint positive evidence terms ([1,2) and [2,3)) whose
intersection folds to `Positive(none)`, against the term `Positive [1,2)`. -/
theorem c10_witness :
    (∀ r : TestR, testSig.inter testSig.none r = testSig.none) ∧
    (∀ r : TestR, testSig.inter r testSig.none = testSig.none) ∧
    Term.intersect_all testSig [Term.Positive r12, Term.Positive r23]
      = some (Term.Positive testSig.none) ∧
    (Term.satisfied_by testSig (Term.Positive r12)
        [Term.Positive r12, Term.Positive r23] = true ∧
     Term.contradicted_by testSig (Term.Positive r12)
        [Term.Positive r12, Term.Positive r23] = true ∧
     Term.relation_with testSig (Term.Positive r12)
        (some [Term.Positive r12, Term.Positive r23]) = Relation.Satisfied) := by
  have h1 : ∀ r : TestR, testSig.inter testSig.none r = testSig.none := by
    rintro ⟨a, b, c, d⟩
    simp [testSig]
  have h2 : ∀ r : TestR, testSig.inter r testSig.none = testSig.none := by
    rintro ⟨a, b, c, d⟩
    simp [testSig]
  have hev : Term.intersect_all testSig [Term.Positive r12, Term.Positive r23]
      = some (Term.Positive testSig.none) := by decide
  exact ⟨h1, h2, hev,
    c10_jointly_unsatisfiable_evidence testSig h1 h2 (Term.Positive r12) _ hev⟩

end Theorems

end PubGrub
